import Mathlib

/-!
Verification of the weewx-forecast core (src/bin/user/forecast.py) against its
natural-language specification.  The Python code is shallowly embedded: Python
strings become `List Char`, Python dicts become insertion-ordered association
lists, Python exceptions become an explicit `Except PyExc` result, and the two
pieces of ambient state the code reads (the wall clock via `time.time()` and
the local timezone via `time.mktime` / `time.localtime`) are reified as
explicit parameters `now : Int` and `tz : Int` (seconds of local offset,
DST not modelled).
-/

namespace Weewx

/-- Python `str` is modelled as a list of characters. -/
abbrev PyStr := List Char

/-- Convert a Lean string literal to the embedded Python string type. -/
def pstr (s : String) : PyStr := s.toList

/-- Python exceptions that the embedded code can raise. -/
inductive PyExc where
  | keyError (k : PyStr)
  | valueError
  | indexError
  | dbError
  | otherError
deriving DecidableEq, Repr

/-- Characters Python treats as whitespace for `str.strip` / `str.isspace`
(the ASCII subset, which is all that occurs in PFM products). -/
def isPySpace (c : Char) : Bool :=
  c = ' ' || c = '\t' || c = '\n' || c = '\r' || c = '\x0b' || c = '\x0c'

/-- Python slice `s[a:b]` for nonnegative bounds (clamping at the ends). -/
def pySub (s : PyStr) (a b : Nat) : PyStr := (s.take b).drop a

/-- Python `str.strip()`. -/
def pyStrip (s : PyStr) : PyStr :=
  ((s.dropWhile isPySpace).reverse.dropWhile isPySpace).reverse

/-- Python `str.upper()` (ASCII). -/
def pyUpper (s : PyStr) : PyStr := s.map Char.toUpper

/-- Python `str.splitlines()`: split on `\n`, `\r` and `\r\n`; a trailing
line terminator does not produce a final empty element. -/
def pySplitlinesAux : PyStr → List Char → List PyStr
  | [], acc => if acc.isEmpty then [] else [acc.reverse]
  | '\r' :: '\n' :: rest, acc => acc.reverse :: pySplitlinesAux rest []
  | '\n' :: rest, acc => acc.reverse :: pySplitlinesAux rest []
  | '\r' :: rest, acc => acc.reverse :: pySplitlinesAux rest []
  | c :: rest, acc => pySplitlinesAux rest (c :: acc)

/-- Python `str.splitlines()`. -/
def pySplitlines (s : PyStr) : List PyStr := pySplitlinesAux s []

/-- Python `str.split(' ')`: split at every single space, keeping empty
pieces (so consecutive spaces yield empty strings). -/
def pySplitSpAux : PyStr → List Char → List PyStr
  | [], acc => [acc.reverse]
  | ' ' :: rest, acc => acc.reverse :: pySplitSpAux rest []
  | c :: rest, acc => pySplitSpAux rest (c :: acc)

/-- Python `str.split(' ')`. -/
def pySplitSp (s : PyStr) : List PyStr := pySplitSpAux s []

/-- Python `str.split()` with no argument: split on runs of whitespace,
dropping empty pieces.  Used only to state the specification's
"first whitespace-separated token" reading of location matching. -/
def pySplitWhiteAux : PyStr → List Char → List PyStr
  | [], acc => if acc.isEmpty then [] else [acc.reverse]
  | c :: rest, acc =>
      if isPySpace c then
        if acc.isEmpty then pySplitWhiteAux rest []
        else acc.reverse :: pySplitWhiteAux rest []
      else pySplitWhiteAux rest (c :: acc)

/-- Python `str.split()` (whitespace runs). -/
def pySplitWhite (s : PyStr) : List PyStr := pySplitWhiteAux s []

/-- Numeric value of a nonempty all-digit string, if it is one. -/
def digitsVal : PyStr → Option Nat
  | [] => none
  | ds =>
      if ds.all Char.isDigit then
        some (ds.foldl (fun acc c => acc * 10 + (c.toNat - 48)) 0)
      else none

/-- Python `int(s)`: optional surrounding whitespace, optional sign, then
decimal digits; anything else raises `ValueError`. -/
def pyInt (s : PyStr) : Except PyExc Int :=
  match pyStrip s with
  | '-' :: ds =>
      match digitsVal ds with
      | some n => .ok (-(n : Int))
      | none => .error .valueError
  | '+' :: ds =>
      match digitsVal ds with
      | some n => .ok (n : Int)
      | none => .error .valueError
  | ds =>
      match digitsVal ds with
      | some n => .ok (n : Int)
      | none => .error .valueError

/-- Python `l[i]` on a list: `IndexError` when out of range. -/
def pyIndex {α : Type} (l : List α) (i : Nat) : Except PyExc α :=
  match l.get? i with
  | some x => .ok x
  | none => .error .indexError

/-- Lookup in an insertion-ordered association list (Python dict read). -/
def alGet? {κ α : Type} [DecidableEq κ] : List (κ × α) → κ → Option α
  | [], _ => none
  | (k', v) :: rest, k => if k' = k then some v else alGet? rest k

/-- Python dict write: replace in place if the key exists (keeping its
insertion position), otherwise append at the end. -/
def alSet {κ α : Type} [DecidableEq κ] : List (κ × α) → κ → α → List (κ × α)
  | [], k, v => [(k, v)]
  | (k', v') :: rest, k, v =>
      if k' = k then (k, v) :: rest else (k', v') :: alSet rest k v

/-- Python `k in d`. -/
def alMem {κ α : Type} [DecidableEq κ] (m : List (κ × α)) (k : κ) : Bool :=
  (alGet? m k).isSome

/-- Python `del d[k]` (keys are unique by construction of `alSet`). -/
def alDel {κ α : Type} [DecidableEq κ] : List (κ × α) → κ → List (κ × α)
  | [], _ => []
  | (k', v') :: rest, k => if k' = k then rest else (k', v') :: alDel rest k

/-- Python dict read raising `KeyError` when the key is absent. -/
def alGetE {α : Type} (m : List (PyStr × α)) (k : PyStr) : Except PyExc α :=
  match alGet? m k with
  | some v => .ok v
  | none => .error (.keyError k)

/-- Decidable equality of embedded results, so that concrete runs of the
embedded code can be compared by `decide`. -/
instance {ε α : Type} [DecidableEq ε] [DecidableEq α] : DecidableEq (Except ε α) :=
  fun a b =>
    match a, b with
    | .ok x, .ok y =>
        if h : x = y then .isTrue (congrArg Except.ok h)
        else .isFalse (fun hc => h (Except.ok.inj hc))
    | .ok _, .error _ => .isFalse (fun hc => Except.noConfusion hc)
    | .error _, .ok _ => .isFalse (fun hc => Except.noConfusion hc)
    | .error e, .error f =>
        if h : e = f then .isTrue (congrArg Except.error h)
        else .isFalse (fun hc => h (Except.error.inj hc))

/-- Days from the Unix epoch to a proleptic-Gregorian civil date
(standard era-based civil calendar arithmetic). -/
def daysFromCivil (y m d : Int) : Int :=
  let y' := if m ≤ 2 then y - 1 else y
  let era := Int.ediv y' 400
  let yoe := y' - era * 400
  let mp := Int.emod (m + 9) 12
  let doy := Int.ediv (153 * mp + 2) 5 + d - 1
  let doe := yoe * 365 + Int.ediv yoe 4 - Int.ediv yoe 100 + doy
  era * 146097 + doe - 719468

/-- The fields of a `struct_time` that the NWS issuance grammar produces. -/
structure TmDate where
  y : Int
  mon : Int
  d : Int
  hh : Int
  mm : Int
deriving DecidableEq, Repr

/-- The `%M` token of `time.strptime`: one digit, or two digits whose first
is 0-5, consuming the whole remaining field. -/
def parseMinuteTok : PyStr → Option Nat
  | [a] => if a.isDigit then some (a.toNat - 48) else none
  | [a, b] =>
      if '0' ≤ a && a ≤ '5' && b.isDigit then
        some ((a.toNat - 48) * 10 + (b.toNat - 48))
      else none
  | _ => none

/-- The `%I%M` prefix of the issuance grammar: 12-hour-clock hour written as
`1[0-2]`, `0[1-9]` or `[1-9]` (tried in that order with backtracking, as
Python's `_strptime` regex does), followed by the minutes. -/
def parseIM (s : PyStr) : Option (Nat × Nat) :=
  (match s with
   | '1' :: b :: rest =>
       if '0' ≤ b && b ≤ '2' then
         (parseMinuteTok rest).map (fun mm => (10 + (b.toNat - 48), mm))
       else none
   | _ => none)
  <|>
  (match s with
   | '0' :: b :: rest =>
       if '1' ≤ b && b ≤ '9' then
         (parseMinuteTok rest).map (fun mm => (b.toNat - 48, mm))
       else none
   | _ => none)
  <|>
  (match s with
   | a :: rest =>
       if '1' ≤ a && a ≤ '9' then
         (parseMinuteTok rest).map (fun mm => (a.toNat - 48, mm))
       else none
   | _ => none)

/-- The `%p` token: AM or PM, case-insensitively; `true` means PM. -/
def parseAmPm (s : PyStr) : Option Bool :=
  let l := s.map Char.toLower
  if l = pstr "pm" then some true
  else if l = pstr "am" then some false
  else none

/-- C-locale month abbreviations for `%b`, case-insensitive. -/
def monthAbbrs : List PyStr :=
  [pstr "jan", pstr "feb", pstr "mar", pstr "apr", pstr "may", pstr "jun",
   pstr "jul", pstr "aug", pstr "sep", pstr "oct", pstr "nov", pstr "dec"]

/-- The `%b` token. -/
def parseMonth (s : PyStr) : Option Nat :=
  let l := s.map Char.toLower
  match monthAbbrs.indexOf? l with
  | some i => some (i + 1)
  | none => none

/-- The `%d` token: one digit `1-9`, or two digits valued 01-31. -/
def parseDayTok : PyStr → Option Nat
  | [a] => if '1' ≤ a && a ≤ '9' then some (a.toNat - 48) else none
  | [a, b] =>
      if a.isDigit && b.isDigit then
        let v := (a.toNat - 48) * 10 + (b.toNat - 48)
        if 1 ≤ v && v ≤ 31 then some v else none
      else none
  | _ => none

/-- The `%Y` token: exactly four digits. -/
def parseYearTok : PyStr → Option Nat
  | [a, b, c, d] =>
      if a.isDigit && b.isDigit && c.isDigit && d.isDigit then
        some ((((a.toNat - 48) * 10 + (b.toNat - 48)) * 10 + (c.toNat - 48)) * 10
              + (d.toNat - 48))
      else none
  | _ => none

/-- Model of `time.strptime(s, "%I%M %p %b %d %Y")` applied to the five
tokens the source joins with single spaces, including the 12-to-24 hour
conversion Python performs from `%p`. -/
def strptimeIMpbdY (p0 p1 p4 p5 p6 : PyStr) : Option TmDate := do
  let im ← parseIM p0
  let pm ← parseAmPm p1
  let mon ← parseMonth p4
  let d ← parseDayTok p5
  let y ← parseYearTok p6
  let h12 := im.1
  let hh := if pm then (if h12 = 12 then 12 else h12 + 12)
            else (if h12 = 12 then 0 else h12)
  pure ⟨(y : Int), (mon : Int), (d : Int), (hh : Int), (im.2 : Int)⟩

/-- Model of `time.mktime`: the ambient local timezone is reified as a fixed
offset `tz` (seconds east of UTC; DST is not modelled). -/
def mktime (tz : Int) (t : TmDate) : Int :=
  daysFromCivil t.y t.mon t.d * 86400 + t.hh * 3600 + t.mm * 60 - tz

/-- Model of `weeutil.weeutil.startOfDay` (external weewx library): local
midnight of the day containing `ts`, under the same fixed offset `tz`. -/
def startOfDay (tz ts : Int) : Int := ts - Int.emod (ts + tz) 86400

/-- A cell of the forecast matrix or of an emitted record: `none` models
Python `None`, the other constructors model the str and int values the
decoder produces. -/
inductive Val where
  | none
  | str (s : PyStr)
  | int (n : Int)
deriving DecidableEq, Repr

/-- A value stored in the matrix dict: a scalar or a per-timeline list. -/
inductive MVal where
  | str (s : PyStr)
  | int (n : Int)
  | list (l : List Val)
deriving DecidableEq, Repr

/-- The matrix produced by `NWSParseForecast`: a Python dict modelled as an
insertion-ordered association list. -/
abbrev NwsMatrix := List (PyStr × MVal)

/-- One emitted forecast record (a Python dict of scalar values). -/
abbrev NwsRecord := List (PyStr × Val)

/-- Scalar coercion used where the source copies `matrix['issued_ts']` into a
record (always an int there; the `.list` case is unreachable). -/
def mvalToVal : MVal → Val
  | .str s => .str s
  | .int n => .int n
  | .list _ => .none

/-- Read a list-valued matrix entry (the entry is always a list where this
is used; a scalar or missing entry yields `[]`). -/
def mGetList (m : NwsMatrix) (k : PyStr) : List Val :=
  match alGet? m k with
  | some (.list l) => l
  | _ => []

/-- Write `matrix[label][i] = v` (the entry is always a present list with
`i` in range where this is used). -/
def mSetAt (m : NwsMatrix) (k : PyStr) (i : Nat) (v : Val) : NwsMatrix :=
  match alGet? m k with
  | some (.list l) => alSet m k (.list (l.set i v))
  | _ => m

/-- The `nws_schema_dict` table mapping PFM row labels to field names. -/
def nws_schema_dict : List (PyStr × PyStr) :=
  [(pstr "HOUR", pstr "hour"),
   (pstr "MIN/MAX", pstr "tempMinMax"),
   (pstr "MAX/MIN", pstr "tempMaxMin"),
   (pstr "TEMP", pstr "temp"),
   (pstr "DEWPT", pstr "dewpoint"),
   (pstr "RH", pstr "humidity"),
   (pstr "WIND DIR", pstr "windDir"),
   (pstr "PWIND DIR", pstr "windDir"),
   (pstr "WIND SPD", pstr "windSpeed"),
   (pstr "WIND GUST", pstr "windGust"),
   (pstr "WIND CHAR", pstr "windChar"),
   (pstr "CLOUDS", pstr "clouds"),
   (pstr "AVG CLOUDS", pstr "clouds"),
   (pstr "POP 12HR", pstr "pop"),
   (pstr "QPF 12HR", pstr "qpf"),
   (pstr "SNOW 12HR", pstr "qsf"),
   (pstr "RAIN", pstr "rain"),
   (pstr "RAIN SHWRS", pstr "rainshwrs"),
   (pstr "TSTMS", pstr "tstms"),
   (pstr "DRIZZLE", pstr "drizzle"),
   (pstr "SNOW", pstr "snow"),
   (pstr "SNOWSHWRS", pstr "snowshwrs"),
   (pstr "SNOW SHWRS", pstr "snowshwrs"),
   (pstr "FLURRIES", pstr "flurries"),
   (pstr "SLEET", pstr "sleet"),
   (pstr "FRZNG RAIN", pstr "frzngrain"),
   (pstr "FRZG RAIN", pstr "frzngrain"),
   (pstr "FRZNG DRZL", pstr "frzngdrzl"),
   (pstr "OBVIS", pstr "obvis"),
   (pstr "WIND CHILL", pstr "windChill"),
   (pstr "HEAT INDEX", pstr "heatIndex")]

/-- Loop body of `NWSExtractLocation`: a line starting with the location id
restarts the collected block; once collecting, a line starting with `$$`
ends it (break), any other line is appended. -/
def extractLoop (lid : PyStr) : List PyStr → Option (List PyStr) → Option (List PyStr)
  | [], acc => acc
  | l :: rest, acc =>
      if lid.isPrefixOf l then extractLoop lid rest (some [l])
      else
        match acc with
        | none => extractLoop lid rest none
        | some a =>
            if (pstr "$$").isPrefixOf l then some a
            else extractLoop lid rest (some (a ++ [l]))

/-- `NWSExtractLocation(text, lid)`: the lines of the location block, or
`None` when no line starts with the requested location id. -/
def NWSExtractLocation (text lid : PyStr) : Option (List PyStr) :=
  extractLoop lid (pySplitlines text) none

/-- `date2ts(tstr)`: split on single spaces, join tokens 0, 1, 4, 5, 6 and
parse with `time.strptime(s, "%I%M %p %b %d %Y")` then `time.mktime`; a
malformed string raises `ValueError` (and a short one `IndexError`). -/
def date2ts (tz : Int) (tstr : PyStr) : Except PyExc Int := do
  let parts := pySplitSp tstr
  let p0 ← pyIndex parts 0
  let p1 ← pyIndex parts 1
  let p4 ← pyIndex parts 4
  let p5 ← pyIndex parts 5
  let p6 ← pyIndex parts 6
  match strptimeIMpbdY p0 p1 p4 p5 p6 with
  | some t => pure (mktime tz t)
  | none => .error .valueError

/-- State of the line-classification loop of `NWSParseForecast`: the
issuance time once found, the active cadence mode, and the labelled rows
collected for each cadence. -/
structure PLSt where
  ts : Option Int
  mode : Option Nat
  rows3 : List (PyStr × PyStr)
  rows6 : List (PyStr × PyStr)
deriving DecidableEq, Repr

/-- One iteration of the line loop of `NWSParseForecast` (lines 1832-1858 of
the source): the first 7-token line is parsed as the issuance time; labels
are read from the fixed 14-character column, `UTC...` rows are skipped, a
`...3HRLY`/`...6HRLY` label switches the cadence mode, a trailing `-` flags
a signed row, and recognised labels store `sign-char + line[14:]` into the
row table of the active cadence. -/
def parseLineStep (tz : Int) (st : PLSt) (line : PyStr) : Except PyExc PLSt :=
  if st.ts = none ∧ (pySplitSp line).length = 7 then do
    let t ← date2ts tz line
    pure { st with ts := some t }
  else
    let label0 := pyUpper (pyStrip (pySub line 0 14))
    if (pstr "UTC").isPrefixOf label0 then pure st
    else
      let pls : Char × PyStr × Option Nat :=
        if (pstr "3HRLY").isSuffixOf label0 then (' ', pstr "HOUR", some 3)
        else if (pstr "6HRLY").isSuffixOf label0 then (' ', pstr "HOUR", some 6)
        else if (pstr "-").isSuffixOf label0 then
          ('-', pyStrip (label0.take (label0.length - 1)), st.mode)
        else (' ', label0, st.mode)
      let pfx := pls.1
      let label := pls.2.1
      let mode := pls.2.2
      let st := { st with mode := mode }
      match alGet? nws_schema_dict label with
      | some key =>
          let row := pfx :: line.drop 14
          match mode with
          | some 3 => pure { st with rows3 := alSet st.rows3 key row }
          | some 6 => pure { st with rows6 := alSet st.rows6 key row }
          | _ => pure st
      | none => pure st

/-- State of the hour-index construction loops: the running record index,
the running day offset, the previously parsed hour, the accumulated
ts/hour/duration columns, and the string-position-to-index maps. -/
structure HIdxSt where
  idx : Nat
  day : Int
  lasth : Option Int
  tsl : List Val
  hourl : List Val
  durl : List Val
  ind : List (Nat × Nat)
  i2h : List Nat
deriving DecidableEq, Repr

/-- `range(start, stop, 3)` over the naturals. -/
def rangeStep3 (start stop : Nat) : List Nat :=
  (List.range stop).filter (fun i => start ≤ i && (i - start) % 3 = 0)

/-- One step of the 3-hour indexing loop (source lines 1881-1891): parse the
2-digit hour at string position `i`, add 24h to the running day offset when
it is numerically smaller than the previous hour, and record the absolute
event time with a 3-hour duration. -/
def hourStep3 (hstr : PyStr) (st : HIdxSt) (i : Nat) : Except PyExc HIdxSt := do
  let h ← pyInt (pySub hstr i (i + 2))
  let day := match st.lasth with
             | some l => if h < l then st.day + 24 * 3600 else st.day
             | Option.none => st.day
  pure ⟨st.idx + 1, day, some h,
        st.tsl ++ [Val.int (day + h * 3600)],
        st.hourl ++ [Val.int h],
        st.durl ++ [Val.int (3 * 3600)],
        st.ind ++ [(i + 1, st.idx)],
        st.i2h ++ [i + 1]⟩

/-- The 3-hour indexing loop: `for i in range(1, len(rows3['hour']), 3)`. -/
def hourLoop3 (hstr : PyStr) (st : HIdxSt) : Except PyExc HIdxSt :=
  (rangeStep3 1 hstr.length).foldlM (hourStep3 hstr) st

/-- One step of the 6-hour tokenizer (source lines 1897-1912): accumulate
non-whitespace characters; on whitespace flush the token as an hour, with
the same day-rollover carry, recording a 6-hour duration. -/
def hourStep6 (acc : HIdxSt × List Char) (ci : Nat × Char) : Except PyExc (HIdxSt × List Char) :=
  let st := acc.1
  let s := acc.2
  let i := ci.1
  let c := ci.2
  if isPySpace c then
    if s ≠ [] then do
      let h ← pyInt s
      let day := match st.lasth with
                 | some l => if h < l then st.day + 24 * 3600 else st.day
                 | Option.none => st.day
      pure (⟨st.idx + 1, day, some h,
             st.tsl ++ [Val.int (day + h * 3600)],
             st.hourl ++ [Val.int h],
             st.durl ++ [Val.int (6 * 3600)],
             st.ind ++ [(i - 1, st.idx)],
             st.i2h ++ [i - 1]⟩, [])
    else pure (st, [])
  else pure (st, s ++ [c])

/-- The 6-hour indexing loop including the final end-of-line flush (source
lines 1913-1920), which records a 3-hour duration and - exactly as the
source does - applies no day-rollover carry and no `lasth` update. -/
def hourLoop6 (hstr : PyStr) (st : HIdxSt) : Except PyExc HIdxSt := do
  let acc ← hstr.enum.foldlM hourStep6 (st, [])
  let st := acc.1
  let s := acc.2
  if s ≠ [] then do
    let h ← pyInt s
    pure ⟨st.idx + 1, st.day, st.lasth,
          st.tsl ++ [Val.int (st.day + h * 3600)],
          st.hourl ++ [Val.int h],
          st.durl ++ [Val.int (3 * 3600)],
          st.ind ++ [(hstr.length - 1, st.idx)],
          st.i2h ++ [hstr.length - 1]⟩
  else pure st

/-- The field-width table of `filldata`: `n = {'qpf': 8, 'qsf': 5}`. -/
def fieldWidths : List (PyStr × Nat) := [(pstr "qpf", 8), (pstr "qsf", 5)]

/-- `l = n.get(label, 3)`: default field width 3. -/
def widthFor (label : PyStr) : Nat := (alGet? fieldWidths label).getD 3

/-- One cell of the `filldata` extraction loop: for position `i` (walked in
reverse, `q` counting iterations) slice `rows[label][i-l+1 : i+1]`, strip
it, and store a nonempty result at the timeline index of `i`; wide fields
are only read every 4th position. -/
def fillCell (rowstr label : PyStr) (l : Nat) (indices : List (Nat × Nat))
    (m : NwsMatrix) (qi : Nat × Nat) : NwsMatrix :=
  let q := qi.1
  let i := qi.2
  if l = 3 ∨ q % 4 = 0 then
    let s := if i + 1 < l then 0 else i + 1 - l
    let chunk := pyStrip (pySub rowstr s (i + 1))
    if chunk ≠ [] then mSetAt m label ((alGet? indices i).getD 0) (.str chunk)
    else m
  else m

/-- Per-label body of `filldata`: initialise the field column to `None`s if
absent, then fill it by fixed-width slicing at the row's index positions. -/
def fillLabel (nidx : Nat) (indices : List (Nat × Nat)) (i2h : List Nat)
    (m : NwsMatrix) (kv : PyStr × PyStr) : NwsMatrix :=
  let label := kv.1
  let m := if alMem m label then m
           else alSet m label (.list (List.replicate nidx Val.none))
  let l := widthFor label
  (i2h.reverse.enum).foldl (fillCell kv.2 label l indices) m

/-- One iteration of the min/max reconciliation loop: a non-`None` source
value goes to `tempMin` when the flip state is 0 and to `tempMax`
otherwise, toggling the state; a `None` position changes nothing. -/
def mmStep (vals : List Val) (acc : NwsMatrix × Nat) (i : Nat) : NwsMatrix × Nat :=
  if vals.getD i Val.none = Val.none then acc
  else if acc.2 = 0 then (mSetAt acc.1 (pstr "tempMin") i (vals.getD i Val.none), 1)
  else (mSetAt acc.1 (pstr "tempMax") i (vals.getD i Val.none), 0)

/-- The min/max reconciliation loop of `filldata` (source lines 1948-1969):
`for i in range(nidx)` over the flip-state step. -/
def minmaxLoop (m : NwsMatrix) (src : PyStr) (state0 nidx : Nat) : NwsMatrix :=
  ((List.range nidx).foldl (mmStep (mGetList m src)) (m, state0)).1

/-- `filldata(matrix, nidx, rows, indices, i2h)`: fill the matrix with the
sliced field values of every row, then initialise `tempMin`/`tempMax` and
resolve the alternating `tempMinMax` (flip state starts at min) and
`tempMaxMin` (flip state starts at max) rows, deleting the raw rows. -/
def filldata (m : NwsMatrix) (nidx : Nat) (rows : List (PyStr × PyStr))
    (indices : List (Nat × Nat)) (i2h : List Nat) : NwsMatrix :=
  let m := rows.foldl (fillLabel nidx indices i2h) m
  let m := if alMem m (pstr "tempMin") then m
           else alSet m (pstr "tempMin") (.list (List.replicate nidx Val.none))
  let m := if alMem m (pstr "tempMax") then m
           else alSet m (pstr "tempMax") (.list (List.replicate nidx Val.none))
  let m := if alMem m (pstr "tempMinMax") then
             alDel (minmaxLoop m (pstr "tempMinMax") 0 nidx) (pstr "tempMinMax")
           else m
  let m := if alMem m (pstr "tempMaxMin") then
             alDel (minmaxLoop m (pstr "tempMaxMin") 1 nidx) (pstr "tempMaxMin")
           else m
  m

/-- Body of `NWSParseForecast` once the location block has been extracted:
classify its lines, soft-fail when no issuance time was found, then build
the 3-hour and 6-hour indexing and fill in the data rows.  A block with an
issuance time but no `HOUR` row raises `KeyError`, mirroring the unguarded
`rows3['hour']`/`rows6['hour']` subscripts of the source. -/
def parseBlock (tz : Int) (lid : PyStr) (lines : List PyStr) :
    Except PyExc (Option NwsMatrix) := do
    let st ← lines.foldlM (parseLineStep tz) ⟨none, none, [], []⟩
    match st.ts with
    | Option.none => .ok none
    | some ts => do
      let day_ts := startOfDay tz ts
      let desc ← pyIndex lines 1
      let loc ← pyIndex lines 2
      let m : NwsMatrix :=
        [(pstr "lid", .str lid), (pstr "desc", .str desc),
         (pstr "location", .str loc), (pstr "issued_ts", .int ts),
         (pstr "ts", .list []), (pstr "hour", .list []),
         (pstr "duration", .list [])]
      let hour3 ← alGetE st.rows3 (pstr "hour")
      let st3 ← hourLoop3 hour3 ⟨0, day_ts, none, [], [], [], [], []⟩
      let hour6 ← alGetE st.rows6 (pstr "hour")
      let st6 ← hourLoop6 hour6 { st3 with ind := [], i2h := [] }
      let m := alSet m (pstr "ts") (.list st6.tsl)
      let m := alSet m (pstr "hour") (.list st6.hourl)
      let m := alSet m (pstr "duration") (.list st6.durl)
      let m := filldata m st6.idx st.rows3 st3.ind st3.i2h
      let m := filldata m st6.idx st.rows6 st6.ind st6.i2h
      .ok (some m)

/-- `NWSParseForecast(text, lid)`: extract the location block (soft failure
`None` when absent) and parse it. -/
def NWSParseForecast (tz : Int) (text lid : PyStr) : Except PyExc (Option NwsMatrix) :=
  match NWSExtractLocation text lid with
  | Option.none => .ok none
  | some lines => parseBlock tz lid lines

/-- Build one record of `NWSProcessForecast`: the fixed identity fields,
then one scalar per list-valued matrix entry at timeline slot `i`. -/
def buildRecord (foid lid : PyStr) (m : NwsMatrix) (now : Int) (i : Nat)
    (ev : Val) : Except PyExc NwsRecord :=
  let base : NwsRecord :=
    [(pstr "method", .str (pstr "NWS")), (pstr "usUnits", .int 1),
     (pstr "dateTime", .int now),
     (pstr "issued_ts", mvalToVal ((alGet? m (pstr "issued_ts")).getD (.int 0))),
     (pstr "event_ts", ev),
     (pstr "location", .str (foid ++ [' '] ++ lid))]
  m.foldlM
    (fun r kv =>
      match kv.2 with
      | MVal.list l => do
          let x ← pyIndex l i
          pure (alSet r kv.1 x)
      | _ => pure r)
    base

/-- `NWSProcessForecast(foid, lid, matrix)`: one record per timeline slot;
a `None` matrix yields the empty record list.  The ambient clock read
`now = int(time.time())` of the source is reified as the `now` argument. -/
def NWSProcessForecast (foid lid : PyStr) (matrix? : Option NwsMatrix)
    (now : Int) : Except PyExc (List NwsRecord) :=
  match matrix? with
  | Option.none => .ok []
  | some m => do
    let tsv ← alGetE m (pstr "ts")
    let tsl := match tsv with
               | MVal.list l => l
               | _ => []
    tsl.enum.foldlM
      (fun acc iev => do
        let r ← buildRecord foid lid m now iev.1 iev.2
        pure (acc ++ [r]))
      []

/-- The diagnostic message logged by `get_forecast` when no PFM block is
found for the requested location. -/
def nwsNoPfmMsg (lid foid : PyStr) : PyStr :=
  pstr "NWS: no PFM found for " ++ lid ++ pstr " in forecast from " ++ foid

/-- The decode pipeline of `NWSForecast.get_forecast` after download: parse
the text, and convert the matrix to records; an absent location yields zero
records and the logged diagnostic. -/
def NWSDecode (foid lid : PyStr) (tz now : Int) (text : PyStr) :
    Except PyExc (List NwsRecord × List PyStr) := do
  let matrix ← NWSParseForecast tz text lid
  match matrix with
  | Option.none => .ok ([], [nwsNoPfmMsg lid foid])
  | some m => do
      let recs ← NWSProcessForecast foid lid (some m) now
      .ok (recs, [])

/-- The specification's reading of location matching, stated in its own
words for comparison with the source's `line.startswith(lid)`: the first
whitespace-separated token of a line. -/
def specFirstToken (line : PyStr) : Option PyStr := (pySplitWhite line).head?

/-- A stored forecast row, reduced to the columns the persistence claims
are about. -/
structure DbRecord where
  method : PyStr
  dateTime : Int
  event_ts : Int
deriving DecidableEq, Repr

/-- The bulk delete issued by `Forecast.prune_forecasts` (source line 1291):
`delete from T where method = '<method_id>' and dateTime < <ts>` - the
successful outcome of the retry loop, applied to the stored rows. -/
def prune_forecasts (store : List DbRecord) (method_id : PyStr) (ts : Int) :
    List DbRecord :=
  store.filter (fun r => decide (¬(r.method = method_id ∧ r.dateTime < ts)))

/-- The insert issued by `Forecast.save_forecast` on success (`addRecord`
appends a new cohort of rows). -/
def save_forecast (store : List DbRecord) (records : List DbRecord) :
    List DbRecord :=
  store ++ records

/-- What a trigger does in `Forecast.update_forecast`. -/
inductive UpdateAction where
  | runInline
  | startThread
  | skipRunning
  | skipNotTime
deriving DecidableEq, Repr

/-- `Forecast.update_forecast(event)` (source lines 1207-1218): in
single-thread mode the run body executes inline unconditionally; otherwise
a set `updating` flag skips, a satisfied interval gate
`time.time() - interval > last_ts` spawns the worker thread, and anything
else is a logged no-op. -/
def update_forecast (single_thread updating : Bool)
    (now interval last_ts : Int) : UpdateAction :=
  if single_thread then .runInline
  else if updating then .skipRunning
  else if now - interval > last_ts then .startThread
  else .skipNotTime

/-- Controller state shared between triggers of one source. -/
structure CtlState where
  updating : Bool
  last_ts : Int
  store : List DbRecord
deriving DecidableEq, Repr

/-- Outcome of the provider call `self.get_forecast(event)`: a record list,
`None`, or a raised exception. -/
inductive GetFcResult where
  | got (records : List DbRecord)
  | nothing
  | exc
deriving DecidableEq, Repr

/-- Environment of one run of the run body: the provider outcome, whether
the save and prune retry loops exhaust their attempts (raising the fatal
error the source raises after `max_tries`), the clock reading taken after a
successful save, and the per-source pruning age. -/
structure RunEnv where
  method_id : PyStr
  getfc : GetFcResult
  saveFails : Bool
  pruneFails : Bool
  now : Int
  max_age : Option Int
deriving DecidableEq, Repr

/-- The `try` block of `Forecast.do_forecast` (source lines 1222-1243):
fetch records (early return on `None`), save them (a fatal store error
raises), advance `last_ts` to the completion time, prune by age when
configured (a fatal store error raises), then best-effort vacuum (which
swallows its own errors).  Returns the state reached together with the
exception that escaped the block, if any - mutations made before a raise
persist, as they do in Python. -/
def do_forecast_body (st : CtlState) (env : RunEnv) : CtlState × Option PyExc :=
  match env.getfc with
  | .exc => (st, some .otherError)
  | .nothing => (st, none)
  | .got records =>
      if env.saveFails then (st, some .dbError)
      else
        let st := { st with store := save_forecast st.store records }
        let st := { st with last_ts := env.now }
        match env.max_age with
        | Option.none => (st, none)
        | some age =>
            if env.pruneFails then (st, some .dbError)
            else
              ({ st with
                 store := prune_forecasts st.store env.method_id (env.now - age) },
               none)

/-- `Forecast.do_forecast(event)` (source lines 1220-1249): set `updating`,
run the body, catch any exception it raised (`except Exception`: logged,
never re-raised), and clear `updating` in the `finally` clause.  The
`Except` result type records whether an exception propagates to the
caller; the catch-all makes `.ok` the only reachable outcome. -/
def do_forecast (st : CtlState) (env : RunEnv) : Except PyExc CtlState :=
  let st := { st with updating := true }
  let r := do_forecast_body st env
  .ok { r.1 with updating := false }

/-- A small but complete PFM location block: issuance line, a 3-hourly HOUR
row with hours 05 and 08, a TEMP row, and a 6-hourly HOUR row whose line
ends, with no trailing whitespace, in the token `00` right after `18`. -/
def nwsSampleText : PyStr :=
  pstr "MAZ014-151515\nSOMEWHERE MA\n42.27N 70.88W\n418 PM EDT SAT MAY 11 2013\n\nEDT 3HRLY     05 08 \nTEMP          65 66 \n\nEDT 6HRLY     18 00\n\n$$"

/-- A located block with an issuance line but no HOUR row at all. -/
def nwsNoHourText : PyStr :=
  pstr "MAZ014-151515\nDESC LINE\nLOC LINE\n418 PM EDT SAT MAY 11 2013\n$$"

/-- A located block whose 3-hourly HOUR row carries unparseable hour
digits (`AB` where a 2-digit hour is expected). -/
def nwsBadHourText : PyStr :=
  pstr "MAZ014-151515\nDESC\nLOC\n418 PM EDT SAT MAY 11 2013\nEDT 3HRLY     AB\n$$"

/-- A located block whose first 7-token line is not a parseable issuance
time (`strptime` raises on it). -/
def nwsBadDateText : PyStr := pstr "MAZ014-151515\nA B C D E F G\n$$"

/-- A located block of only two lines: the issuance time parses but the
`matrix['location'] = lines[2]` subscript is out of range. -/
def nwsShortBlockText : PyStr :=
  pstr "MAZ014-151515\n418 PM EDT SAT MAY 11 2013\n$$"

/-- A payload whose only candidate line has the requested location id as a
proper string prefix of its first whitespace-separated token. -/
def nwsC7Text : PyStr := pstr "MAZ0149 1200\nAAA\n$$\nrest"

/-- The `ts` column of a successfully parsed matrix (empty otherwise). -/
def parsedTsList (tz : Int) (text lid : PyStr) : List Val :=
  match NWSParseForecast tz text lid with
  | .ok (some m) => mGetList m (pstr "ts")
  | _ => []

/-- Data rows for exercising `filldata`: a humidity row holding the two
adjacent unseparated `100` values of the real product excerpt plus a
whitespace-only final slice, and a signed dewpoint row. -/
def c5rows : List (PyStr × PyStr) :=
  [(pstr "humidity", pstr " 93100100   "), (pstr "dewpoint", pstr "  5 -7    11")]

/-- The 3-hourly index positions matching a HOUR row `" 05 08 11 14"`. -/
def c5indices : List (Nat × Nat) := [(2, 0), (5, 1), (8, 2), (11, 3)]

/-- The index-to-position list matching `c5indices`. -/
def c5i2h : List Nat := [2, 5, 8, 11]

/-- Number of non-`None` entries among the first `n` positions of a column
(the flip-state of the min/max reconciliation is its parity). -/
def countPresent : List Val → Nat → Nat
  | _, 0 => 0
  | [], _ + 1 => 0
  | v :: vs, n + 1 => (if v ≠ Val.none then 1 else 0) + countPresent vs n

/-- The shape the matrix keeps throughout the min/max reconciliation loop:
the source row followed by the two target series. -/
def c6shape (k0 : PyStr) (v0 : MVal) (a b : List Val) : NwsMatrix :=
  [(k0, v0), (pstr "tempMin", MVal.list a), (pstr "tempMax", MVal.list b)]

/-- Run `filldata` on a matrix holding just one alternating min/max column
(no data rows), isolating the reconciliation step. -/
def minmaxOut (label : PyStr) (vals : List Val) (nidx : Nat) : NwsMatrix :=
  filldata [(label, MVal.list vals)] nidx [] [] []

/-- An alternating min/max column with values at positions 5 and 13 only,
as in the specification's worked example. -/
def c6vals : List Val :=
  [Val.none, Val.none, Val.none, Val.none, Val.none, Val.str (pstr "55"),
   Val.none, Val.none, Val.none, Val.none, Val.none, Val.none, Val.none,
   Val.str (pstr "60")]

/-- The record `NWSDecode` emits for one slot of `nwsSampleText`. -/
def nwsSampleRecord (now ev : Int) (hr : PyStr) (dur : Int) (tempv : Val) :
    NwsRecord :=
  [(pstr "method", .str (pstr "NWS")), (pstr "usUnits", .int 1),
   (pstr "dateTime", .int now), (pstr "issued_ts", .int 1368289080),
   (pstr "event_ts", .int ev),
   (pstr "location", .str (pstr "BOX MAZ014")),
   (pstr "ts", .int ev), (pstr "hour", .str hr),
   (pstr "duration", .int dur), (pstr "temp", tempv),
   (pstr "tempMin", .none), (pstr "tempMax", .none)]

/-- The full expected output of decoding `nwsSampleText` under UTC, as a
function of the ambient clock reading `now`. -/
def nwsExpectedRecords (now : Int) : List NwsRecord :=
  [nwsSampleRecord now 1368248400 (pstr "05") 10800 (.str (pstr "65")),
   nwsSampleRecord now 1368259200 (pstr "08") 10800 (.str (pstr "66")),
   nwsSampleRecord now 1368295200 (pstr "18") 21600 .none,
   nwsSampleRecord now 1368230400 (pstr "00") 10800 .none]

lemma extractLoop_none_of_no_lid (lid : PyStr) :
    ∀ ls : List PyStr, (∀ l ∈ ls, lid.isPrefixOf l = false) →
      extractLoop lid ls none = none := by
  intro ls
  induction ls with
  | nil => intro _; rfl
  | cons l rest ih =>
      intro h
      have hl := h l (List.mem_cons_self l rest)
      simp only [extractLoop, hl, Bool.false_eq_true, if_false]
      exact ih (fun x hx => h x (List.mem_cons_of_mem l hx))

lemma extractLoop_some_isSome (lid : PyStr) :
    ∀ (ls : List PyStr) (a : List PyStr),
      ∃ b, extractLoop lid ls (some a) = some b := by
  intro ls
  induction ls with
  | nil => exact fun a => ⟨a, rfl⟩
  | cons l rest ih =>
      intro a
      by_cases hp : lid.isPrefixOf l = true
      · simpa only [extractLoop, hp, if_true] using ih [l]
      · by_cases hd : (pstr "$$").isPrefixOf l = true
        · exact ⟨a, by simp [extractLoop, hp, hd]⟩
        · simpa only [extractLoop, hp, hd, Bool.false_eq_true, if_false] using
            ih (a ++ [l])

lemma extractLoop_isSome_of_mem (lid : PyStr) :
    ∀ ls : List PyStr, (∃ l ∈ ls, lid.isPrefixOf l = true) →
      ∀ acc, ∃ b, extractLoop lid ls acc = some b := by
  intro ls
  induction ls with
  | nil => rintro ⟨l, hl, -⟩; exact absurd hl (List.not_mem_nil l)
  | cons l rest ih =>
      rintro ⟨x, hx, hpx⟩ acc
      by_cases hp : lid.isPrefixOf l = true
      · simpa only [extractLoop, hp, if_true] using extractLoop_some_isSome lid rest [l]
      · have hx' : x ∈ rest := by
          rcases List.mem_cons.mp hx with rfl | h
          · exact absurd hpx hp
          · exact h
        cases acc with
        | none =>
            simpa only [extractLoop, hp, Bool.false_eq_true, if_false] using
              ih ⟨x, hx', hpx⟩ none
        | some a =>
            by_cases hd : (pstr "$$").isPrefixOf l = true
            · exact ⟨a, by simp [extractLoop, hp, hd]⟩
            · simpa only [extractLoop, hp, hd, Bool.false_eq_true, if_false] using
                ih ⟨x, hx', hpx⟩ (some (a ++ [l]))

lemma extractLoop_mem (lid : PyStr) :
    ∀ (ls : List PyStr) (acc : Option (List PyStr)) (res : List PyStr),
      extractLoop lid ls acc = some res →
      ∀ x ∈ res, (∃ a, acc = some a ∧ x ∈ a) ∨ x ∈ ls := by
  intro ls
  induction ls with
  | nil => exact fun acc res h x hx => Or.inl ⟨res, h, hx⟩
  | cons l rest ih =>
      intro acc res h x hx
      by_cases hp : lid.isPrefixOf l = true
      · rw [show extractLoop lid (l :: rest) acc = extractLoop lid rest (some [l]) by
            simp [extractLoop, hp]] at h
        rcases ih (some [l]) res h x hx with ⟨a, ha, hxa⟩ | hmem
        · obtain rfl : [l] = a := Option.some.inj ha
          obtain rfl : x = l := List.mem_singleton.mp hxa
          exact Or.inr (List.mem_cons_self x rest)
        · exact Or.inr (List.mem_cons_of_mem l hmem)
      · cases acc with
        | none =>
            rw [show extractLoop lid (l :: rest) none = extractLoop lid rest none by
                simp [extractLoop, hp]] at h
            rcases ih none res h x hx with ⟨a, ha, -⟩ | hmem
            · exact absurd ha (by simp)
            · exact Or.inr (List.mem_cons_of_mem l hmem)
        | some a =>
            by_cases hd : (pstr "$$").isPrefixOf l = true
            · obtain rfl : a = res := by simpa [extractLoop, hp, hd] using h
              exact Or.inl ⟨a, rfl, hx⟩
            · rw [show extractLoop lid (l :: rest) (some a)
                    = extractLoop lid rest (some (a ++ [l])) by
                  simp [extractLoop, hp, hd]] at h
              rcases ih (some (a ++ [l])) res h x hx with ⟨a', ha', hxa'⟩ | hmem
              · obtain rfl : a ++ [l] = a' := Option.some.inj ha'
                rcases List.mem_append.mp hxa' with hxa | hxl
                · exact Or.inl ⟨a, rfl, hxa⟩
                · obtain rfl : x = l := List.mem_singleton.mp hxl
                  exact Or.inr (List.mem_cons_self x rest)
              · exact Or.inr (List.mem_cons_of_mem l hmem)

lemma NWSExtractLocation_mem (text lid : PyStr) (lines : List PyStr)
    (h : NWSExtractLocation text lid = some lines) :
    ∀ x ∈ lines, x ∈ pySplitlines text := by
  intro x hx
  rcases extractLoop_mem lid (pySplitlines text) none lines h x hx with ⟨a, ha, -⟩ | hm
  · exact absurd ha (by simp)
  · exact hm

lemma parseLineStep_no7 (tz : Int) (st : PLSt) (line : PyStr)
    (h : (pySplitSp line).length ≠ 7) :
    ∃ st', parseLineStep tz st line = .ok st' ∧ st'.ts = st.ts := by
  unfold parseLineStep
  rw [if_neg (fun hc => h hc.2)]
  dsimp only
  repeat' first
  | exact ⟨_, rfl, rfl⟩
  | split

lemma parse_fold_no7 (tz : Int) :
    ∀ (ls : List PyStr) (st : PLSt),
      (∀ l ∈ ls, (pySplitSp l).length ≠ 7) →
      ∃ st', ls.foldlM (parseLineStep tz) st = .ok st' ∧ st'.ts = st.ts := by
  intro ls
  induction ls with
  | nil => exact fun st _ => ⟨st, rfl, rfl⟩
  | cons l rest ih =>
      intro st h
      obtain ⟨st1, h1, hts1⟩ := parseLineStep_no7 tz st l (h l (List.mem_cons_self l rest))
      obtain ⟨st2, h2, hts2⟩ := ih st1 (fun x hx => h x (List.mem_cons_of_mem l hx))
      refine ⟨st2, ?_, hts2.trans hts1⟩
      have hdef : (l :: rest).foldlM (parseLineStep tz) st
          = parseLineStep tz st l >>= fun s => rest.foldlM (parseLineStep tz) s := rfl
      rw [hdef, h1]
      exact h2

lemma NWSParse_ok_none_of_no_lid (tz : Int) (text lid : PyStr)
    (h : ∀ l ∈ pySplitlines text, lid.isPrefixOf l = false) :
    NWSParseForecast tz text lid = .ok none := by
  unfold NWSParseForecast NWSExtractLocation
  rw [extractLoop_none_of_no_lid lid (pySplitlines text) h]

lemma parseBlock_ok_none_of_no7 (tz : Int) (lid : PyStr) (lines : List PyStr)
    (h : ∀ l ∈ lines, (pySplitSp l).length ≠ 7) :
    parseBlock tz lid lines = .ok none := by
  obtain ⟨st', hfold, hts⟩ := parse_fold_no7 tz lines ⟨none, none, [], []⟩ h
  have hts' : st'.ts = none := hts
  unfold parseBlock
  rw [hfold]
  show (match st'.ts with
        | Option.none => Except.ok none
        | some ts => _) = Except.ok none
  rw [hts']

lemma NWSParse_ok_none_of_no7 (tz : Int) (text lid : PyStr)
    (h : ∀ l ∈ pySplitlines text, (pySplitSp l).length ≠ 7) :
    NWSParseForecast tz text lid = .ok none := by
  unfold NWSParseForecast
  cases hex : NWSExtractLocation text lid with
  | none => rfl
  | some lines =>
      exact parseBlock_ok_none_of_no7 tz lid lines
        (fun l hl => h l (NWSExtractLocation_mem text lid lines hex l hl))

/-- Claim C1, counterexample: `prune` filters on `dateTime`, not on
`event_ts`.  A record acquired recently (`dateTime = 100`) but forecasting
a stale event (`event_ts = 0 < 50`) survives `prune(NWS, 50)`, and a record
acquired long ago (`dateTime = 0`) forecasting a fresh event
(`event_ts = 100 ≥ 50`) is deleted by it. -/
theorem c1_prune_counterexample :
    (∃ r ∈ prune_forecasts [⟨pstr "NWS", 100, 0⟩] (pstr "NWS") 50,
        r.event_ts < 50) ∧
    (∃ r ∈ ([⟨pstr "NWS", 0, 100⟩] : List DbRecord),
        50 ≤ r.event_ts ∧ r ∉ prune_forecasts [⟨pstr "NWS", 0, 100⟩] (pstr "NWS") 50) := by
  decide

/-- Claim C1, amended: after `prune(id, cutoff)` no stored record of `id`
has `dateTime < cutoff`; every record whose `dateTime` is at or past the
cutoff, and every record of another method, survives; and pruning never
adds records. -/
theorem c1_prune_by_dateTime (store : List DbRecord) (id : PyStr) (ts : Int) :
    (∀ r ∈ prune_forecasts store id ts, r ∈ store) ∧
    (∀ r ∈ prune_forecasts store id ts, r.method = id → ts ≤ r.dateTime) ∧
    (∀ r ∈ store, r.method ≠ id ∨ ts ≤ r.dateTime →
        r ∈ prune_forecasts store id ts) := by
  refine ⟨fun r hr => (List.mem_filter.mp hr).1,
          fun r hr hm => ?_, fun r hr hcond => ?_⟩
  · have h2 := (List.mem_filter.mp hr).2
    simp only [decide_eq_true_eq] at h2
    by_contra hlt
    exact h2 ⟨hm, by omega⟩
  · refine List.mem_filter.mpr ⟨hr, ?_⟩
    simp only [decide_eq_true_eq]
    rintro ⟨hm, hlt⟩
    rcases hcond with hne | hge
    · exact hne hm
    · omega

/-- Claim C1, witness: a record of the method with `dateTime` past the
cutoff is still present after pruning. -/
theorem c1_prune_by_dateTime_witness :
    (⟨pstr "NWS", 60, 10⟩ : DbRecord) ∈
      prune_forecasts [⟨pstr "NWS", 60, 10⟩] (pstr "NWS") 50 :=
  (c1_prune_by_dateTime [⟨pstr "NWS", 60, 10⟩] (pstr "NWS") 50).2.2
    ⟨pstr "NWS", 60, 10⟩ (by decide) (Or.inr (by decide))

/-- Claim C2, counterexample: with `lastSuccessTs = 0` and `interval = 10`,
a tick at exactly `T + I = 10` does not start a run - the gate
`now - interval > last_ts` is strict - contradicting the claim that a tick
at `T + I` starts one. -/
theorem c2_tick_at_interval_counterexample :
    update_forecast false false 10 10 0 = UpdateAction.skipNotTime ∧
    update_forecast false false 10 10 0 ≠ UpdateAction.startThread := by
  decide

/-- Claim C2, amended: for an idle controller, ticks at `T + I - 1` and at
`T + I` are both "not yet time"; the run starts once `now - I > T`, e.g. at
`T + I + 1`. -/
theorem c2_throttle_strict (T I : Int) :
    update_forecast false false (T + I - 1) I T = UpdateAction.skipNotTime ∧
    update_forecast false false (T + I) I T = UpdateAction.skipNotTime ∧
    update_forecast false false (T + I + 1) I T = UpdateAction.startThread := by
  have h1 : ¬(T + I - 1 - I > T) := by omega
  have h2 : ¬(T + I - I > T) := by omega
  have h3 : T + I + 1 - I > T := by omega
  refine ⟨?_, ?_, ?_⟩ <;> simp [update_forecast, h1, h2, h3]

/-- Claim C3, counterexample: a located block containing a well-formed
issuance line but no HOUR row makes the decoder raise `KeyError` (the
unguarded `rows3['hour']` subscript), instead of soft-failing with zero
records as the claim states. -/
theorem c3_decoder_raises :
    NWSParseForecast 0 nwsNoHourText (pstr "MAZ014") =
      .error (PyExc.keyError (pstr "hour")) := by
  decide

/-- Claim C3, amended: the decoder soft-fails (zero records, no raise)
when no line of the payload starts with the requested location id, and
whenever the located block contains no line splitting into exactly 7
space-separated tokens (no issuance candidate); but a located block with a
parsed issuance time and no HOUR row raises `KeyError` (see the
counterexample), unparseable hour digits and a malformed 7-token issuance
line raise `ValueError`, and a block shorter than 3 lines raises
`IndexError`. -/
theorem c3_soft_failure_paths (tz : Int) (text lid : PyStr) :
    ((∀ l ∈ pySplitlines text, lid.isPrefixOf l = false) →
        NWSParseForecast tz text lid = .ok none) ∧
    (∀ lines, NWSExtractLocation text lid = some lines →
        (∀ l ∈ lines, (pySplitSp l).length ≠ 7) →
        NWSParseForecast tz text lid = .ok none) ∧
    NWSParseForecast 0 nwsBadHourText (pstr "MAZ014") =
      .error PyExc.valueError ∧
    NWSParseForecast 0 nwsBadDateText (pstr "MAZ014") =
      .error PyExc.valueError ∧
    NWSParseForecast 0 nwsShortBlockText (pstr "MAZ014") =
      .error PyExc.indexError := by
  refine ⟨NWSParse_ok_none_of_no_lid tz text lid, ?_, by decide, by decide,
          by decide⟩
  intro lines hex h
  unfold NWSParseForecast
  rw [hex]
  exact parseBlock_ok_none_of_no7 tz lid lines h

/-- Claim C3, witness: a located block with no issuance candidate line
yields the soft failure. -/
theorem c3_soft_failure_paths_witness :
    NWSParseForecast 0 (pstr "MAZ014 A\nBBB") (pstr "MAZ014") = .ok none :=
  (c3_soft_failure_paths 0 (pstr "MAZ014 A\nBBB") (pstr "MAZ014")).2.1
    [pstr "MAZ014 A", pstr "BBB"] (by decide) (by decide)

/-- Claim C4, code-bug evidence: on `nwsSampleText` the hours parsed are
05, 08 (3-hourly) then 18, 00 (6-hourly); the final token `00` is flushed
at end of line, where the source omits the day-rollover carry, so its event
time is local midnight `1368230400` - 18 hours before the preceding index
`1368295200` - instead of the carried `1368230400 + 86400 = 1368316800`. -/
theorem c4_final_flush_misses_carry :
    parsedTsList 0 nwsSampleText (pstr "MAZ014") =
      [Val.int 1368248400, Val.int 1368259200,
       Val.int 1368295200, Val.int 1368230400] ∧
    (1368230400 : Int) < 1368295200 := by
  refine ⟨by decide, by decide⟩

/-- Claim C7, counterexample: the block for `MAZ014` begins at the line
`"MAZ0149 1200"`, whose first whitespace-separated token `MAZ0149` is not
the requested id - the source matches by `line.startswith(lid)`, not by
first-token equality. -/
theorem c7_token_equality_counterexample :
    NWSExtractLocation nwsC7Text (pstr "MAZ014") =
      some [pstr "MAZ0149 1200", pstr "AAA"] ∧
    specFirstToken (pstr "MAZ0149 1200") ≠ some (pstr "MAZ014") := by
  decide

/-- Claim C7, amended: a location block is found exactly when some line has
the requested id as a string prefix (`line.startswith(lid)`), the block
running to the next `$$` line; when no line does, the decode pipeline
returns zero records and a non-empty diagnostic list. -/
theorem c7_startswith_matching (text lid foid : PyStr) (tz now : Int) :
    ((NWSExtractLocation text lid).isSome = true ↔
        ∃ l ∈ pySplitlines text, lid.isPrefixOf l = true) ∧
    ((∀ l ∈ pySplitlines text, lid.isPrefixOf l = false) →
        NWSDecode foid lid tz now text = .ok ([], [nwsNoPfmMsg lid foid])) := by
  constructor
  · constructor
    · intro hs
      by_contra hne
      have hfa : ∀ l ∈ pySplitlines text, lid.isPrefixOf l = false := by
        intro l hl
        cases hb : lid.isPrefixOf l with
        | false => rfl
        | true => exact absurd ⟨l, hl, hb⟩ hne
      unfold NWSExtractLocation at hs
      rw [extractLoop_none_of_no_lid lid (pySplitlines text) hfa] at hs
      simp at hs
    · rintro ⟨l, hl, hp⟩
      obtain ⟨b, hb⟩ :=
        extractLoop_isSome_of_mem lid (pySplitlines text) ⟨l, hl, hp⟩ none
      unfold NWSExtractLocation
      rw [hb]
      rfl
  · intro h
    have hp := NWSParse_ok_none_of_no_lid tz text lid h
    unfold NWSDecode
    rw [hp]
    rfl

/-- Claim C7, witness: a payload with no line starting with the id yields
zero records plus the diagnostic. -/
theorem c7_startswith_matching_witness :
    NWSDecode (pstr "BOX") (pstr "MAZ014") 0 0 (pstr "XYZ\nABC") =
      .ok ([], [nwsNoPfmMsg (pstr "MAZ014") (pstr "BOX")]) :=
  (c7_startswith_matching (pstr "XYZ\nABC") (pstr "MAZ014") (pstr "BOX") 0 0).2
    (by decide)

/-- Claim C8: whatever the run body does - records produced, nothing to do,
or an exception anywhere inside (including a fatal store error after
retries) - `do_forecast` returns normally and leaves the `updating` flag
cleared: the body runs under `try`/`except Exception`/`finally`. -/
theorem c8_run_body_releases (st : CtlState) (env : RunEnv) :
    ∃ st', do_forecast st env = Except.ok st' ∧ st'.updating = false :=
  ⟨_, rfl, rfl⟩

/-- Claim C10: with `single_thread` set, a trigger runs the body inline
unconditionally - the result does not depend on the `updating` flag, the
clock, the interval or `last_ts`, so consecutive ticks each run. -/
theorem c10_single_thread_inline (updating : Bool) (now interval last_ts : Int) :
    update_forecast true updating now interval last_ts = UpdateAction.runInline :=
  rfl

/-- Claim C5: `filldata` widths are 8 for `qpf`, 5 for `qsf` and 3 for
every other label; and on a 3-hourly index, slicing a humidity row with
the two adjacent unseparated `100` values yields `93, 100, 100` with the
whitespace-only fourth slice mapped to `None` (not zero), while a signed
dewpoint row keeps the `-7` captured through the extra sign column. -/
theorem c5_fixed_width_slicing :
    (widthFor (pstr "qpf") = 8 ∧ widthFor (pstr "qsf") = 5 ∧
      ∀ label : PyStr, label ≠ pstr "qpf" → label ≠ pstr "qsf" →
        widthFor label = 3) ∧
    (mGetList (filldata [] 4 c5rows c5indices c5i2h) (pstr "humidity") =
        [Val.str (pstr "93"), Val.str (pstr "100"),
         Val.str (pstr "100"), Val.none] ∧
      mGetList (filldata [] 4 c5rows c5indices c5i2h) (pstr "dewpoint") =
        [Val.str (pstr "5"), Val.str (pstr "-7"),
         Val.none, Val.str (pstr "11")]) := by
  refine ⟨⟨rfl, rfl, ?_⟩, by decide, by decide⟩
  intro label h1 h2
  have e1 : alGet? fieldWidths label = none := by
    simp [fieldWidths, alGet?, Ne.symm h1, Ne.symm h2]
  simp [widthFor, e1]

/-- Claim C5, witness: a label other than `qpf`/`qsf` gets width 3. -/
theorem c5_fixed_width_slicing_witness : widthFor (pstr "temp") = 3 :=
  c5_fixed_width_slicing.1.2.2 (pstr "temp") (by decide) (by decide)

/-- Claim C9, counterexample: with the payload and the clock reading both
fixed, decoding under two ambient timezones produces different record
lists - `date2ts` goes through `time.mktime`, which reads the ambient
timezone, so the decode pipeline is not pure in its stated inputs. -/
theorem c9_ambient_timezone_counterexample :
    NWSDecode (pstr "BOX") (pstr "MAZ014") 0 5 nwsSampleText ≠
      NWSDecode (pstr "BOX") (pstr "MAZ014") 3600 5 nwsSampleText := by
  decide

/-- Claim C9, amended: once the two pieces of ambient state the pipeline
reads are fixed - the timezone (used by issuance parsing) and the clock
reading (stored as every record's `dateTime` and nowhere else) - decoding
is deterministic: for the sample payload under UTC it produces exactly
`nwsExpectedRecords now` for every clock value `now`. -/
theorem c9_deterministic_given_ambient (now : Int) :
    NWSDecode (pstr "BOX") (pstr "MAZ014") 0 now nwsSampleText =
      .ok (nwsExpectedRecords now, []) :=
  rfl

lemma getD_set_self {α : Type} (l : List α) (i : Nat) (v d : α)
    (h : i < l.length) : (l.set i v).getD i d = v := by
  induction l generalizing i with
  | nil => exact absurd h (Nat.not_lt_zero i)
  | cons x xs ih =>
      cases i with
      | zero => rfl
      | succ n => exact ih n (Nat.lt_of_succ_lt_succ h)

lemma getD_set_other {α : Type} (l : List α) (i j : Nat) (v d : α)
    (h : i ≠ j) : (l.set i v).getD j d = l.getD j d := by
  induction l generalizing i j with
  | nil => rfl
  | cons x xs ih =>
      cases i with
      | zero =>
          cases j with
          | zero => exact absurd rfl h
          | succ m => rfl
      | succ n =>
          cases j with
          | zero => rfl
          | succ m => exact ih n m (fun hc => h (by rw [hc]))

lemma getD_replicate {α : Type} (n i : Nat) (d : α) :
    (List.replicate n d).getD i d = d := by
  induction n generalizing i with
  | zero => rfl
  | succ m ih =>
      cases i with
      | zero => rfl
      | succ k => exact ih k

lemma countPresent_zero (vals : List Val) : countPresent vals 0 = 0 := by
  cases vals <;> rfl

lemma countPresent_succ (vals : List Val) :
    ∀ n : Nat, countPresent vals (n + 1) =
      countPresent vals n +
        (if vals.getD n Val.none ≠ Val.none then 1 else 0) := by
  induction vals with
  | nil => intro n; cases n <;> simp [countPresent, List.getD]
  | cons v vs ih =>
      intro n
      cases n with
      | zero =>
          simp only [countPresent, countPresent_zero, List.getD_cons_zero]
          omega
      | succ m =>
          simp only [countPresent, ih m, List.getD_cons_succ]
          omega

lemma c6_set_min (k0 : PyStr) (h1 : k0 ≠ pstr "tempMin") (v0 : MVal)
    (a b : List Val) (i : Nat) (v : Val) :
    mSetAt (c6shape k0 v0 a b) (pstr "tempMin") i v =
      c6shape k0 v0 (a.set i v) b := by
  simp [mSetAt, c6shape, alGet?, alSet, h1]

lemma c6_set_max (k0 : PyStr) (h2 : k0 ≠ pstr "tempMax") (v0 : MVal)
    (a b : List Val) (i : Nat) (v : Val) :
    mSetAt (c6shape k0 v0 a b) (pstr "tempMax") i v =
      c6shape k0 v0 a (b.set i v) := by
  have hmn : pstr "tempMin" ≠ pstr "tempMax" := by decide
  simp [mSetAt, c6shape, alGet?, alSet, h2, hmn]

lemma c6_fold (vals : List Val) (k0 : PyStr)
    (h1 : k0 ≠ pstr "tempMin") (h2 : k0 ≠ pstr "tempMax") (v0 : MVal) :
    ∀ (n : Nat) (a b : List Val) (s0 : Nat), s0 = 0 ∨ s0 = 1 →
      n ≤ a.length → n ≤ b.length →
      ∃ a' b' s',
        (List.range n).foldl (mmStep vals) (c6shape k0 v0 a b, s0) =
          (c6shape k0 v0 a' b', s') ∧
        a'.length = a.length ∧ b'.length = b.length ∧
        s' = (s0 + countPresent vals n) % 2 ∧
        (∀ i, n ≤ i → a'.getD i Val.none = a.getD i Val.none) ∧
        (∀ i, n ≤ i → b'.getD i Val.none = b.getD i Val.none) ∧
        (∀ i, i < n → vals.getD i Val.none = Val.none →
           a'.getD i Val.none = a.getD i Val.none ∧
           b'.getD i Val.none = b.getD i Val.none) ∧
        (∀ i, i < n → vals.getD i Val.none ≠ Val.none →
           ((s0 + countPresent vals i) % 2 = 0 →
              a'.getD i Val.none = vals.getD i Val.none ∧
              b'.getD i Val.none = b.getD i Val.none) ∧
           ((s0 + countPresent vals i) % 2 = 1 →
              b'.getD i Val.none = vals.getD i Val.none ∧
              a'.getD i Val.none = a.getD i Val.none)) := by
  intro n
  induction n with
  | zero =>
      intro a b s0 hs _ _
      refine ⟨a, b, s0, rfl, rfl, rfl, ?_, fun i _ => rfl, fun i _ => rfl,
              fun i hi => absurd hi (Nat.not_lt_zero i),
              fun i hi => absurd hi (Nat.not_lt_zero i)⟩
      rw [countPresent_zero]
      omega
  | succ n ih =>
      intro a b s0 hs ha hb
      obtain ⟨a', b', s', heq, hla, hlb, hs', hta, htb, hnull, hpres⟩ :=
        ih a b s0 hs (Nat.le_of_succ_le ha) (Nat.le_of_succ_le hb)
      rw [List.range_succ, List.foldl_append, heq, List.foldl_cons, List.foldl_nil]
      by_cases hv : vals.getD n Val.none = Val.none
      · refine ⟨a', b', s', ?_, hla, hlb, ?_, ?_, ?_, ?_, ?_⟩
        · unfold mmStep
          rw [if_pos hv]
        · rw [countPresent_succ]
          simp only [hv, ne_eq, not_true_eq_false, if_false]
          omega
        · exact fun i hi => hta i (Nat.le_of_succ_le hi)
        · exact fun i hi => htb i (Nat.le_of_succ_le hi)
        · intro i hi hvi
          rcases Nat.lt_succ_iff_lt_or_eq.mp hi with hlt | rfl
          · exact hnull i hlt hvi
          · exact ⟨hta i (Nat.le_refl i), htb i (Nat.le_refl i)⟩
        · intro i hi hvi
          rcases Nat.lt_succ_iff_lt_or_eq.mp hi with hlt | rfl
          · exact hpres i hlt hvi
          · exact absurd hv hvi
      · have hs01 : s' = 0 ∨ s' = 1 := by omega
        have hna : n < a.length := ha
        have hnb : n < b.length := hb
        by_cases hz : s' = 0
        · refine ⟨a'.set n (vals.getD n Val.none), b', 1, ?_,
                  by rw [List.length_set]; exact hla, hlb, ?_, ?_, ?_, ?_, ?_⟩
          · unfold mmStep
            rw [if_neg hv]
            dsimp only
            rw [if_pos hz, c6_set_min k0 h1]
          · rw [countPresent_succ, if_pos hv]
            omega
          · intro i hi
            rw [getD_set_other _ _ _ _ _ (by omega)]
            exact hta i (by omega)
          · exact fun i hi => htb i (by omega)
          · intro i hi hvi
            rcases Nat.lt_succ_iff_lt_or_eq.mp hi with hlt | rfl
            · obtain ⟨hn1, hn2⟩ := hnull i hlt hvi
              exact ⟨by rw [getD_set_other _ _ _ _ _ (by omega)]; exact hn1, hn2⟩
            · exact absurd hvi hv
          · intro i hi hvi
            rcases Nat.lt_succ_iff_lt_or_eq.mp hi with hlt | rfl
            · obtain ⟨hp0, hp1⟩ := hpres i hlt hvi
              constructor
              · intro hpar
                obtain ⟨x1, x2⟩ := hp0 hpar
                exact ⟨by rw [getD_set_other _ _ _ _ _ (by omega)]; exact x1, x2⟩
              · intro hpar
                obtain ⟨x1, x2⟩ := hp1 hpar
                exact ⟨x1, by rw [getD_set_other _ _ _ _ _ (by omega)]; exact x2⟩
            · constructor
              · intro _
                refine ⟨?_, htb i (Nat.le_refl i)⟩
                exact getD_set_self a' i _ _ (by rw [hla]; omega)
              · intro hpar
                exfalso
                omega
        · have hz1 : s' = 1 := by omega
          refine ⟨a', b'.set n (vals.getD n Val.none), 0, ?_,
                  hla, by rw [List.length_set]; exact hlb, ?_, ?_, ?_, ?_, ?_⟩
          · unfold mmStep
            rw [if_neg hv]
            dsimp only
            rw [if_neg hz, c6_set_max k0 h2]
          · rw [countPresent_succ, if_pos hv]
            omega
          · exact fun i hi => hta i (by omega)
          · intro i hi
            rw [getD_set_other _ _ _ _ _ (by omega)]
            exact htb i (by omega)
          · intro i hi hvi
            rcases Nat.lt_succ_iff_lt_or_eq.mp hi with hlt | rfl
            · obtain ⟨hn1, hn2⟩ := hnull i hlt hvi
              exact ⟨hn1, by rw [getD_set_other _ _ _ _ _ (by omega)]; exact hn2⟩
            · exact absurd hvi hv
          · intro i hi hvi
            rcases Nat.lt_succ_iff_lt_or_eq.mp hi with hlt | rfl
            · obtain ⟨hp0, hp1⟩ := hpres i hlt hvi
              constructor
              · intro hpar
                obtain ⟨x1, x2⟩ := hp0 hpar
                exact ⟨x1, by rw [getD_set_other _ _ _ _ _ (by omega)]; exact x2⟩
              · intro hpar
                obtain ⟨x1, x2⟩ := hp1 hpar
                exact ⟨by rw [getD_set_other _ _ _ _ _ (by omega)]; exact x1, x2⟩
            · constructor
              · intro hpar
                exfalso
                omega
              · intro _
                refine ⟨?_, hta i (Nat.le_refl i)⟩
                exact getD_set_self b' i _ _ (by rw [hlb]; omega)

/-- Claim C6: for an alternating min/max temperature row, `filldata`
initialises both series to all-`None`, deletes the raw row, and assigns
the non-`None` values by flip state: under the `MIN/MAX` label a value
preceded by an even number of non-`None` values goes to `tempMin` and the
others to `tempMax`; under the `MAX/MIN` label the roles are swapped; the
alternation skips `None` gaps, and positions that are `None` in the source
row stay `None` in both series. -/
theorem c6_minmax_flip (vals : List Val) (nidx i : Nat) (hi : i < nidx) :
    (alGet? (minmaxOut (pstr "tempMinMax") vals nidx) (pstr "tempMinMax") = none ∧
     alGet? (minmaxOut (pstr "tempMaxMin") vals nidx) (pstr "tempMaxMin") = none) ∧
    (vals.getD i Val.none = Val.none →
       (mGetList (minmaxOut (pstr "tempMinMax") vals nidx) (pstr "tempMin")).getD i Val.none = Val.none ∧
       (mGetList (minmaxOut (pstr "tempMinMax") vals nidx) (pstr "tempMax")).getD i Val.none = Val.none ∧
       (mGetList (minmaxOut (pstr "tempMaxMin") vals nidx) (pstr "tempMin")).getD i Val.none = Val.none ∧
       (mGetList (minmaxOut (pstr "tempMaxMin") vals nidx) (pstr "tempMax")).getD i Val.none = Val.none) ∧
    (vals.getD i Val.none ≠ Val.none →
       (countPresent vals i % 2 = 0 →
          (mGetList (minmaxOut (pstr "tempMinMax") vals nidx) (pstr "tempMin")).getD i Val.none = vals.getD i Val.none ∧
          (mGetList (minmaxOut (pstr "tempMinMax") vals nidx) (pstr "tempMax")).getD i Val.none = Val.none ∧
          (mGetList (minmaxOut (pstr "tempMaxMin") vals nidx) (pstr "tempMax")).getD i Val.none = vals.getD i Val.none ∧
          (mGetList (minmaxOut (pstr "tempMaxMin") vals nidx) (pstr "tempMin")).getD i Val.none = Val.none) ∧
       (countPresent vals i % 2 = 1 →
          (mGetList (minmaxOut (pstr "tempMinMax") vals nidx) (pstr "tempMax")).getD i Val.none = vals.getD i Val.none ∧
          (mGetList (minmaxOut (pstr "tempMinMax") vals nidx) (pstr "tempMin")).getD i Val.none = Val.none ∧
          (mGetList (minmaxOut (pstr "tempMaxMin") vals nidx) (pstr "tempMin")).getD i Val.none = vals.getD i Val.none ∧
          (mGetList (minmaxOut (pstr "tempMaxMin") vals nidx) (pstr "tempMax")).getD i Val.none = Val.none)) := by
  obtain ⟨a1, b1, s1, heq1, hla1, hlb1, hs1, hta1, htb1, hnull1, hpres1⟩ :=
    c6_fold vals (pstr "tempMinMax") (by decide) (by decide) (MVal.list vals)
      nidx (List.replicate nidx Val.none) (List.replicate nidx Val.none) 0
      (Or.inl rfl) (by rw [List.length_replicate]) (by rw [List.length_replicate])
  obtain ⟨a2, b2, s2, heq2, hla2, hlb2, hs2, hta2, htb2, hnull2, hpres2⟩ :=
    c6_fold vals (pstr "tempMaxMin") (by decide) (by decide) (MVal.list vals)
      nidx (List.replicate nidx Val.none) (List.replicate nidx Val.none) 1
      (Or.inr rfl) (by rw [List.length_replicate]) (by rw [List.length_replicate])
  have hred1 : minmaxOut (pstr "tempMinMax") vals nidx =
      [(pstr "tempMin", MVal.list a1), (pstr "tempMax", MVal.list b1)] := by
    have hstart : minmaxOut (pstr "tempMinMax") vals nidx =
        (fun m' => if alMem m' (pstr "tempMaxMin") = true then
            alDel (minmaxLoop m' (pstr "tempMaxMin") 1 nidx) (pstr "tempMaxMin")
          else m')
          (alDel ((List.range nidx).foldl (mmStep vals)
             (c6shape (pstr "tempMinMax") (MVal.list vals)
               (List.replicate nidx Val.none) (List.replicate nidx Val.none),
              0)).1 (pstr "tempMinMax")) := rfl
    rw [hstart, heq1]
    rfl
  have hred2 : minmaxOut (pstr "tempMaxMin") vals nidx =
      [(pstr "tempMin", MVal.list a2), (pstr "tempMax", MVal.list b2)] := by
    have hstart : minmaxOut (pstr "tempMaxMin") vals nidx =
        alDel ((List.range nidx).foldl (mmStep vals)
           (c6shape (pstr "tempMaxMin") (MVal.list vals)
             (List.replicate nidx Val.none) (List.replicate nidx Val.none),
            1)).1 (pstr "tempMaxMin") := rfl
    rw [hstart, heq2]
    rfl
  rw [hred1, hred2]
  have g1 : mGetList [(pstr "tempMin", MVal.list a1), (pstr "tempMax", MVal.list b1)]
      (pstr "tempMin") = a1 := rfl
  have g2 : mGetList [(pstr "tempMin", MVal.list a1), (pstr "tempMax", MVal.list b1)]
      (pstr "tempMax") = b1 := rfl
  have g3 : mGetList [(pstr "tempMin", MVal.list a2), (pstr "tempMax", MVal.list b2)]
      (pstr "tempMin") = a2 := rfl
  have g4 : mGetList [(pstr "tempMin", MVal.list a2), (pstr "tempMax", MVal.list b2)]
      (pstr "tempMax") = b2 := rfl
  rw [g1, g2, g3, g4]
  refine ⟨⟨rfl, rfl⟩, ?_, ?_⟩
  · intro hv
    obtain ⟨x1, x2⟩ := hnull1 i hi hv
    obtain ⟨y1, y2⟩ := hnull2 i hi hv
    exact ⟨x1.trans (getD_replicate nidx i Val.none),
           x2.trans (getD_replicate nidx i Val.none),
           y1.trans (getD_replicate nidx i Val.none),
           y2.trans (getD_replicate nidx i Val.none)⟩
  · intro hv
    constructor
    · intro hpar
      obtain ⟨x1, x2⟩ := (hpres1 i hi hv).1 (by omega)
      obtain ⟨y1, y2⟩ := (hpres2 i hi hv).2 (by omega)
      exact ⟨x1, x2.trans (getD_replicate nidx i Val.none), y1,
             y2.trans (getD_replicate nidx i Val.none)⟩
    · intro hpar
      obtain ⟨x1, x2⟩ := (hpres1 i hi hv).2 (by omega)
      obtain ⟨y1, y2⟩ := (hpres2 i hi hv).1 (by omega)
      exact ⟨x1, x2.trans (getD_replicate nidx i Val.none), y1,
             y2.trans (getD_replicate nidx i Val.none)⟩

/-- Claim C6, witness: in the specification's worked example (values at
positions 5 and 13 of a `MIN/MAX` row), the first present value lands in
`tempMin[5]`. -/
theorem c6_minmax_flip_witness :
    (mGetList (minmaxOut (pstr "tempMinMax") c6vals 14) (pstr "tempMin")).getD 5
      Val.none = Val.str (pstr "55") := by
  have h := ((c6_minmax_flip c6vals 14 5 (by decide)).2.2 (by decide)).1 (by decide)
  exact h.1

end Weewx
